import Mathlib

/-!
Verification of the pair-sampling and text-generation routines of the
learning-keras repository, shallowly embedded in Lean 4.

The embedding covers:
* `get_img_pairs_and_labels` of `keras_shared_vision_model.py` (unbalanced
  pair sampler),
* `get_img_pairs_and_labels` of `mnist_shared_vision_model.py` (balanced
  pair sampler, including the numpy fancy-indexing one-hot assignment and
  its broadcasting rules),
* `_generate_char_index`, `_generate_training_data`, `generate_text` and the
  interactive `prompt` input validation of `nietzsche_lstm_text_generation.py`.

Randomness (`np.random.choice`, `np.random.multinomial` inside `_sample`) is
made explicit: every random draw is a parameter of the embedded function, and
"for every run" claims quantify over all parameter values in the support that
the source code's sampler can produce.
-/

/-! ### numpy primitives used by the samplers -/

/-- Support of `np.random.choice(n, k)`: a length-`k` vector of indices drawn
from `range(n)`, i.e. every entry is `< n`. -/
def numpy_choice_support (n k : Nat) (out : List Nat) : Prop :=
  out.length = k ∧ ∀ i ∈ out, i < n

/-- The index draws of both pair samplers: the source calls
`np.random.choice(num_img - 1, k)` (line 40/41 of `mnist_shared_vision_model.py`
and line 37/38 of `keras_shared_vision_model.py`), so the support is
`range(num_img - 1)`. -/
def sampler_draw_support (num_img k : Nat) (out : List Nat) : Prop :=
  numpy_choice_support (num_img - 1) k out

/-- Embedding of `np.take(xs, idxs, axis=0)` for a 1-d index list. -/
def numpy_take {α : Type} [Inhabited α] (xs : List α) (idxs : List Nat) : List α :=
  idxs.map (fun i => xs.getD i default)

/-- Pointwise `(labels_a == labels_b).astype(int)`. -/
def matchFlag (a b : Nat) : Nat := if a = b then 1 else 0

/-- Embedding of `np.nonzero(l)[0]` for a 1-d array: the positions of the nonzero entries,
in increasing order. -/
def nonzeroIdx (l : List Nat) : List Nat :=
  (List.range l.length).filter (fun i => l.getD i 0 != 0)

/-- One fresh row of `np.zeros((n, width))` after the assignment
`row[col] = 1` (a one-hot row). -/
def oneHotRow (width col : Nat) : List Nat :=
  (List.range width).map (fun j => if j = col then 1 else 0)

/-- The numpy statement `a[np.arange(n), cols] = 1` on `a = np.zeros((n, width))`.
`np.arange(n)` has shape `(n,)` and `cols` has shape `(cols.length,)`; the two
index arrays must broadcast against each other, so the assignment raises a
shape-mismatch error (`none`) unless the lengths are equal or one of them is 1.
Column values `≥ width` raise an index error (`none`). -/
def fancyOneHotAssign (n width : Nat) (cols : List Nat) : Option (List (List Nat)) :=
  if cols.any (fun c => width ≤ c) then none
  else if cols.length = n then
    some ((List.range n).map (fun k => oneHotRow width (cols.getD k 0)))
  else if cols.length = 1 then
    some (List.replicate n (oneHotRow width (cols.getD 0 0)))
  else if n = 1 then
    some [(List.range width).map (fun j => if cols.contains j then 1 else 0)]
  else none

/-! ### Unbalanced pair sampler (`keras_shared_vision_model.py`, lines 27-46)

`get_img_pairs_and_labels(imgs, labels)` draws `num_img` index pairs from
`np.random.choice(num_img - 1, num_img)` and labels each pair by whether the
two source labels agree.  The index draws are explicit parameters here. -/

structure KerasPairData (α : Type) where
  digit_a : List α
  digit_b : List α
  labels : List Nat

/-- Embedding of the unbalanced `get_img_pairs_and_labels`.  `digit_a_idx` and
`digit_b_idx` are the two `np.random.choice` draws. -/
def keras_get_img_pairs_and_labels {α : Type} [Inhabited α]
    (imgs : List α) (lbls : List Nat)
    (digit_a_idx digit_b_idx : List Nat) : KerasPairData α :=
  { digit_a := numpy_take imgs digit_a_idx
    digit_b := numpy_take imgs digit_b_idx
    labels := List.zipWith matchFlag
      (digit_a_idx.map (fun i => lbls.getD i 0))
      (digit_b_idx.map (fun i => lbls.getD i 0)) }

/-! ### Balanced pair sampler (`mnist_shared_vision_model.py`, lines 29-67) -/

structure MnistPairData (α : Type) where
  labels : List Nat
  digit_a : List α
  digit_b : List α
  digit_a_labels : List (List Nat)
  digit_b_labels : List (List Nat)

/-- Line 48: the match flags of the oversampled pool,
`labels = (labels_a == labels_b).astype(int)`. -/
def pool_match_labels (lbls digit_a_idx digit_b_idx : List Nat) : List Nat :=
  List.zipWith matchFlag
    (digit_a_idx.map (fun i => lbls.getD i 0))
    (digit_b_idx.map (fun i => lbls.getD i 0))

/-- Line 51: `idx_false = np.nonzero(labels)[0]`.  Despite its name this is
the list of positions of the MATCH pairs (flag 1). -/
def idx_false_of (labels : List Nat) : List Nat := nonzeroIdx labels

/-- Lines 52-53: `mask_true = np.ones(len(labels)); mask_true[idx_false] = 0`. -/
def mask_true_of (labels : List Nat) : List Nat :=
  (List.range labels.length).map
    (fun i => if (idx_false_of labels).contains i then 0 else 1)

/-- Line 54: `idx_true = np.nonzero(mask_true)[0]`, the positions of the
NON-match pairs (flag 0). -/
def idx_true_of (labels : List Nat) : List Nat := nonzeroIdx (mask_true_of labels)

/-- Lines 55-57: truncate both partitions to `half_desired_size` entries and
concatenate, non-match positions first. -/
def idx_images_of (labels : List Nat) (half : Nat) : List Nat :=
  (idx_true_of labels).take half ++ (idx_false_of labels).take half

/-- Embedding of the balanced `get_img_pairs_and_labels`.  `digit_a_idx` and
`digit_b_idx` are the two `np.random.choice(num_img - 1, desired_size * 10)`
draws; `none` models an uncaught numpy exception (shape mismatch or index
error in the one-hot assignments of lines 63-66). -/
def mnist_get_img_pairs_and_labels {α : Type} [Inhabited α]
    (imgs : List α) (lbls : List Nat) (desired_size : Nat)
    (digit_a_idx digit_b_idx : List Nat) : Option (MnistPairData α) :=
  let half_desired_size := desired_size / 2
  let digit_a := numpy_take imgs digit_a_idx
  let digit_b := numpy_take imgs digit_b_idx
  let labels_a := digit_a_idx.map (fun i => lbls.getD i 0)
  let labels_b := digit_b_idx.map (fun i => lbls.getD i 0)
  let labels := List.zipWith matchFlag labels_a labels_b
  let idx_images := idx_images_of labels half_desired_size
  match fancyOneHotAssign (half_desired_size * 2) 10
          (idx_images.map (fun i => labels_a.getD i 0)),
        fancyOneHotAssign (half_desired_size * 2) 10
          (idx_images.map (fun i => labels_b.getD i 0)) with
  | some la, some lb =>
      some { labels := idx_images.map (fun i => labels.getD i 0)
             digit_a := idx_images.map (fun i => digit_a.getD i default)
             digit_b := idx_images.map (fun i => digit_b.getD i default)
             digit_a_labels := la
             digit_b_labels := lb }
  | _, _ => none

example :
    keras_get_img_pairs_and_labels ([7, 8, 9] : List Nat) [0, 1, 2] [0, 1, 0] [1, 1, 0]
      = { digit_a := [7, 8, 7], digit_b := [8, 8, 7], labels := [0, 1, 1] } := rfl

example :
    (mnist_get_img_pairs_and_labels ([5, 6] : List Nat) [3, 3] 2
        [0, 1, 0, 1, 0, 1, 0, 1, 0, 1, 0, 1, 0, 1, 0, 1, 0, 1, 0, 1]
        [1, 0, 1, 0, 1, 0, 1, 0, 1, 0, 1, 0, 1, 0, 1, 0, 1, 0, 1, 0]).isSome = true := by
  decide

/-! ### Character vocabulary builder (`nietzsche_lstm_text_generation.py`, lines 76-89)

`chars = sorted(list(set(self._text)))` followed by the two enumeration
dictionaries.  `sorted` on distinct characters is code-point order, which is
exactly `(· ≤ ·)` on `Char`. -/

/-- Line 85, `chars = sorted(list(set(text)))`: the distinct characters of the corpus in
increasing code-point order. -/
def generate_char_index (text : List Char) : List Char :=
  List.insertionSort (· ≤ ·) text.dedup

/-- Lookup `self._char_indices_dict[c]` (line 88): the dense index of character `c`. -/
def char_indices (text : List Char) (c : Char) : Nat :=
  (generate_char_index text).indexOf c

/-- Lookup `self._indices_char_dict[i]` (line 87): the character at dense index `i`. -/
def indices_char (text : List Char) (i : Nat) : Char :=
  (generate_char_index text).getD i default

/-! ### Sequence windower (`nietzsche_lstm_text_generation.py`, lines 91-130) -/

/-- Inner helper `vectorize_chars` (lines 103-113): one-hot encode a character string over a
vocabulary of width `num_chars` using the char-to-index dictionary. -/
def vectorize_chars (num_chars : Nat) (char_idx : Char → Nat) (s : List Char) :
    List (List Bool) :=
  s.map (fun c => (List.range num_chars).map (fun j => j == char_idx c))

/-- A row of `np.zeros(num_chars, dtype=np.bool)`. -/
def zeroRow (num_chars : Nat) : List Bool := List.replicate num_chars false

/-- An all-zero sentence matrix `np.zeros((L, num_chars), dtype=np.bool)`. -/
def zeroSentence (sentence_char_len num_chars : Nat) : List (List Bool) :=
  List.replicate sentence_char_len (zeroRow num_chars)

/-- Python `range(0, stop, step)`: the multiples of `step` below `stop`. -/
def pyRange (stop step : Nat) : List Nat :=
  (List.range ((stop + step - 1) / step)).map (fun k => k * step)

/-- Embedding of `_generate_training_data` (lines 115-129): allocate
`num_sentences = int((T - L)/step) + 1` zero rows, then run the loop
`for i in range(0, T - L, step)` writing window `int(i/step)`.  The assignment
`next_chars[int(i/step)] = vectorize_chars(text[i+L])` broadcasts the shape
`(1, num_chars)` one-hot matrix onto the `(num_chars,)` row. -/
def generate_training_data (text : List Char) (sentence_char_len step num_chars : Nat)
    (char_idx : Char → Nat) : List (List (List Bool)) × List (List Bool) :=
  let text_char_len := text.length
  let num_sentences := (text_char_len - sentence_char_len) / step + 1
  (pyRange (text_char_len - sentence_char_len) step).foldl
    (fun acc i =>
      (acc.1.set (i / step)
         (vectorize_chars num_chars char_idx ((text.drop i).take sentence_char_len)),
       acc.2.set (i / step)
         ((vectorize_chars num_chars char_idx [text.getD (i + sentence_char_len) default]).getD 0
            (zeroRow num_chars))))
    (List.replicate num_sentences (zeroSentence sentence_char_len num_chars),
     List.replicate num_sentences (zeroRow num_chars))

/-! ### Autoregressive text sampler (`nietzsche_lstm_text_generation.py`, lines 168-209)

The model's probability vector and the multinomial draw inside `_sample` are
made explicit through the oracle `sample : Nat → Nat → Nat` mapping
(diversity position, loop step) to the sampled vocabulary index; a run of the
program corresponds to one oracle.  A `KeyError` raised by a dictionary lookup
is `lookupFailure`. -/

inductive GenOutcome where
  | seedTooShort : GenOutcome
  | lookupFailure : GenOutcome
  | generated : List (List Char) → GenOutcome
deriving DecidableEq

/-- Lines 178-187: lowercase the seed and, when it is longer than 40
characters, keep only its last 40 characters. -/
def seed_window (raw_seed : List Char) : List Char :=
  let s := raw_seed.map Char.toLower
  if 40 < s.length then s.drop (s.length - 40) else s

/-- The inner loop `for i in range(num_char_to_generate)` (lines 195-207) for
one diversity `d`: encode the current window via `char_indices_dict` (KeyError
when a character is missing from the vocabulary), sample the next index,
look it up in `indices_char_dict` (KeyError when out of range), append it and
slide the window by one. -/
def gen_chars (vocab : List Char) (sample : Nat → Nat → Nat) (d : Nat) :
    Nat → Nat → List Char → List Char → Except Unit (List Char)
  | 0, _, _, generated => Except.ok generated
  | m + 1, i, sentence, generated =>
    if sentence.all (fun c => vocab.contains c) then
      if h : sample d i < vocab.length then
        gen_chars vocab sample d m (i + 1)
          (sentence.drop 1 ++ [vocab.get ⟨sample d i, h⟩])
          (generated ++ [vocab.get ⟨sample d i, h⟩])
      else Except.error ()
    else Except.error ()

/-- The outer loop `for diversity in [0.2, 0.5, 1.0, 1.2]` (line 188), run
sequentially over the diversity positions; the first uncaught exception aborts
the whole call. -/
def run_all_diversities (vocab : List Char) (sample : Nat → Nat → Nat)
    (num_char : Nat) (window : List Char) : List Nat → Except Unit (List (List Char))
  | [] => Except.ok []
  | d :: rest =>
    match gen_chars vocab sample d num_char 0 window [] with
    | Except.error e => Except.error e
    | Except.ok cs =>
      match run_all_diversities vocab sample num_char window rest with
      | Except.error e => Except.error e
      | Except.ok rs => Except.ok (cs :: rs)

/-- Embedding of `generate_text` (lines 168-209).  The observable output of one
diversity run is the text written to stdout: the lowercased `raw_seed`
(line 194) followed by the characters generated for that run (line 206);
`generated` collects the four runs in order.  A seed shorter than 40
characters is rejected on line 182-184 before anything is generated. -/
def generate_text (vocab : List Char) (sample : Nat → Nat → Nat)
    (raw_seed : List Char) (num_char_to_generate : Nat) : GenOutcome :=
  let seed0 := raw_seed.map Char.toLower
  if seed0.length < 40 then GenOutcome.seedTooShort
  else
    match run_all_diversities vocab sample num_char_to_generate
        (seed_window raw_seed) [0, 1, 2, 3] with
    | Except.error _ => GenOutcome.lookupFailure
    | Except.ok runs => GenOutcome.generated (runs.map (fun cs => seed0 ++ cs))

/-! ### Interactive prompt validation (`nietzsche_lstm_text_generation.py`, lines 249-289) -/

/-- Python `int(s)`: optional surrounding spaces, an optional sign and a
nonempty digit string; anything else raises `ValueError` (`none`). -/
def python_int_parse (s : List Char) : Option Int :=
  let t := ((s.dropWhile (fun c => c == ' ')).reverse.dropWhile (fun c => c == ' ')).reverse
  match t with
  | '-' :: ds =>
    if !ds.isEmpty && ds.all Char.isDigit then
      some (-(ds.foldl (fun acc c => acc * 10 + ((c.toNat : Int) - ('0'.toNat : Int))) 0))
    else none
  | '+' :: ds =>
    if !ds.isEmpty && ds.all Char.isDigit then
      some (ds.foldl (fun acc c => acc * 10 + ((c.toNat : Int) - ('0'.toNat : Int))) 0)
    else none
  | ds =>
    if !ds.isEmpty && ds.all Char.isDigit then
      some (ds.foldl (fun acc c => acc * 10 + ((c.toNat : Int) - ('0'.toNat : Int))) 0)
    else none

inductive CountStep where
  | exitSession : CountStep
  | reprompt : CountStep
  | generate : Int → CountStep
deriving DecidableEq

/-- One pass of the character-count prompt body (lines 271-287): the sentinel
`exit` ends the session, `int()` failure re-prompts, a parsed value `< 0`
re-prompts, and any other parsed value triggers generation with that count. -/
def count_input_step (s : List Char) : CountStep :=
  if s = ['e', 'x', 'i', 't'] then CountStep.exitSession
  else
    match python_int_parse s with
    | none => CountStep.reprompt
    | some n => if n < 0 then CountStep.reprompt else CountStep.generate n

inductive SeedStep where
  | exitSession : SeedStep
  | reprompt : SeedStep
  | accept : List Char → SeedStep
deriving DecidableEq

/-- One pass of the seed prompt body (lines 263-270): the sentinel `exit` ends
the session, a seed shorter than 40 characters re-prompts, anything else is
accepted. -/
def seed_input_step (s : List Char) : SeedStep :=
  if s = ['e', 'x', 'i', 't'] then SeedStep.exitSession
  else if s.length < 40 then SeedStep.reprompt
  else SeedStep.accept s

example : (generate_training_data ['a', 'b', 'c', 'd', 'e'] 2 2 1 (fun _ => 0)).1.length = 2 := by
  decide

example :
    generate_text ['a'] (fun _ _ => 0) (List.replicate 40 'a') 1
      = GenOutcome.generated (List.replicate 4 (List.replicate 41 'a')) := by
  decide

example : count_input_step ['4', '2'] = CountStep.generate 42 := by decide
example : count_input_step ['x'] = CountStep.reprompt := by decide
example : generate_char_index ['b', 'a', 'b'] = ['a', 'b'] := by decide

/-! ## Helper lemmas -/

theorem mem_nonzeroIdx {l : List Nat} {i : Nat} :
    i ∈ nonzeroIdx l ↔ i < l.length ∧ l.getD i 0 ≠ 0 := by
  simp [nonzeroIdx, List.mem_filter, List.mem_range]

theorem filter_range_getD_length (l : List Nat) (p : Nat → Bool) :
    ((List.range l.length).filter (fun i => p (l.getD i 0))).length = l.countP p := by
  induction l with
  | nil => simp
  | cons a t ih =>
    have hmap :
        List.filter (fun i => p ((a :: t).getD i 0)) (List.map Nat.succ (List.range t.length))
          = List.map Nat.succ (List.filter (fun i => p (t.getD i 0)) (List.range t.length)) := by
      rw [List.filter_map]
      rfl
    rw [List.length_cons, List.range_succ_eq_map, List.filter_cons]
    simp only [List.getD_cons_zero, hmap, List.countP_cons]
    by_cases hpa : p a = true
    · rw [if_pos hpa, if_pos hpa, List.length_cons, List.length_map, ih]
    · rw [if_neg hpa, if_neg hpa, List.length_map, ih, Nat.add_zero]

theorem idx_false_of_length (l : List Nat) :
    (idx_false_of l).length = l.countP (fun x => x != 0) :=
  filter_range_getD_length l (fun x => x != 0)

theorem contains_idx_false_iff {l : List Nat} {i : Nat} :
    (idx_false_of l).contains i = true ↔ i < l.length ∧ l.getD i 0 ≠ 0 := by
  rw [show ((idx_false_of l).contains i = true) ↔ i ∈ idx_false_of l from List.elem_iff]
  exact mem_nonzeroIdx

theorem idx_true_of_eq (l : List Nat) :
    idx_true_of l = (List.range l.length).filter (fun i => l.getD i 0 == 0) := by
  unfold idx_true_of nonzeroIdx
  have hlen : (mask_true_of l).length = l.length := by
    simp [mask_true_of]
  rw [hlen]
  apply List.filter_congr
  intro i hi
  rw [List.mem_range] at hi
  have hm : (mask_true_of l).getD i 0 = if (idx_false_of l).contains i then 0 else 1 := by
    rw [List.getD_eq_getElem _ _ (by simpa [mask_true_of] using hi)]
    simp [mask_true_of]
  rw [hm]
  by_cases hc : (idx_false_of l).contains i = true
  · have hne : l.getD i 0 ≠ 0 := (contains_idx_false_iff.1 hc).2
    have hmem : i ∈ idx_false_of l := List.elem_iff.1 hc
    simp [hc, hmem, hne, ← List.getD_eq_getElem?_getD]
  · have h0 : l.getD i 0 = 0 := by
      by_contra hne
      exact hc (contains_idx_false_iff.2 ⟨hi, hne⟩)
    have hmem : i ∉ idx_false_of l := fun hm => hc (List.elem_iff.2 hm)
    simp [hc, hmem, h0, ← List.getD_eq_getElem?_getD]

theorem idx_true_of_length (l : List Nat) :
    (idx_true_of l).length = l.countP (fun x => x == 0) := by
  rw [idx_true_of_eq]
  exact filter_range_getD_length l (fun x => x == 0)

theorem mem_idx_true_of {l : List Nat} {i : Nat} (h : i ∈ idx_true_of l) :
    l.getD i 0 = 0 := by
  rw [idx_true_of_eq] at h
  simpa using (List.mem_filter.1 h).2

theorem mem_idx_false_of {l : List Nat} {i : Nat} (h : i ∈ idx_false_of l) :
    l.getD i 0 ≠ 0 :=
  (mem_nonzeroIdx.1 h).2

theorem matchFlag_eq_zero_or_one (a b : Nat) : matchFlag a b = 0 ∨ matchFlag a b = 1 := by
  unfold matchFlag
  split <;> simp

theorem pool_match_labels_mem {lbls da db : List Nat} {x : Nat}
    (h : x ∈ pool_match_labels lbls da db) : x = 0 ∨ x = 1 := by
  unfold pool_match_labels at h
  rcases List.mem_iff_getElem.1 h with ⟨i, hi, hx⟩
  rw [List.getElem_zipWith] at hx
  rw [← hx]
  exact matchFlag_eq_zero_or_one _ _

theorem countP_ne_zero_eq_count_one {l : List Nat} (h : ∀ x ∈ l, x = 0 ∨ x = 1) :
    l.countP (fun x => x != 0) = l.count 1 := by
  rw [List.count_eq_countP]
  apply List.countP_congr
  intro x hx
  rcases h x hx with h0 | h1 <;> subst_vars <;> simp

theorem countP_eq_zero_eq_count_zero (l : List Nat) :
    l.countP (fun x => x == 0) = l.count 0 :=
  (List.count_eq_countP 0 l).symm

/-! ## C3 -/

/-- C3: the claim states that each pair index is drawn uniformly from the full
range `[0, N-1]`, so that every index including `N-1` can be selected.  The
code instead calls `np.random.choice(num_img - 1, ...)`, whose support is
`range(num_img - 1) = [0, N-2]`: in every run of either pair sampler the last
image index `num_img - 1` is never drawn, contradicting the claim (and the
source's own comment "get num_img random digits between 0 and num_img-1"). -/
theorem C3_sampler_never_draws_last_index (num_img k : Nat) (out : List Nat)
    (h : sampler_draw_support num_img k out) : num_img - 1 ∉ out := by
  intro hmem
  exact absurd (h.2 _ hmem) (lt_irrefl _)

/-- Witness for C3 at a concrete draw: a support-compliant draw for a
10-image dataset cannot contain index 9. -/
theorem C3_sampler_never_draws_last_index_witness :
    (10 : Nat) - 1 ∉ ([0, 5] : List Nat) :=
  C3_sampler_never_draws_last_index 10 2 [0, 5] ⟨rfl, by decide⟩

/-! ## C7 -/

/-- C7 counterexample: the unbalanced sampler has no desired-size parameter;
on a 3-image dataset its output always has 3 pairs, so the claim instance
"with desired size D = 1 it returns exactly 1 pair" is false. -/
theorem C7_counterexample_size_not_desired :
    (keras_get_img_pairs_and_labels ([7, 8, 9] : List Nat) [0, 1, 2]
        [0, 1, 0] [1, 1, 0]).labels.length = 3 ∧ (3 : Nat) ≠ 1 := by
  constructor
  · rfl
  · decide

/-- C7 amended: on an `N`-image dataset the unbalanced sampler
(`keras_shared_vision_model.py`) returns exactly `N` pairs (the draw size is
`num_img`, there is no desired-size parameter), and the `k`-th match flag is
`1` exactly when the source labels of the two drawn images agree, `0`
otherwise. -/
theorem C7_unbalanced_sampler_size_and_flags {α : Type} [Inhabited α]
    (imgs : List α) (lbls : List Nat) (digit_a_idx digit_b_idx : List Nat)
    (hA : digit_a_idx.length = imgs.length) (hB : digit_b_idx.length = imgs.length) :
    (keras_get_img_pairs_and_labels imgs lbls digit_a_idx digit_b_idx).labels.length
        = imgs.length ∧
    ∀ k, k < imgs.length →
      (keras_get_img_pairs_and_labels imgs lbls digit_a_idx digit_b_idx).labels.getD k 0
        = if lbls.getD (digit_a_idx.getD k 0) 0 = lbls.getD (digit_b_idx.getD k 0) 0
          then 1 else 0 := by
  have hlen :
      (keras_get_img_pairs_and_labels imgs lbls digit_a_idx digit_b_idx).labels.length
        = imgs.length := by
    simp [keras_get_img_pairs_and_labels, List.length_zipWith, hA, hB]
  refine ⟨hlen, ?_⟩
  intro k hk
  have hkA : k < digit_a_idx.length := by omega
  have hkB : k < digit_b_idx.length := by omega
  have hkL : k < (keras_get_img_pairs_and_labels imgs lbls digit_a_idx digit_b_idx).labels.length := by
    omega
  rw [List.getD_eq_getElem _ _ hkL]
  simp only [keras_get_img_pairs_and_labels]
  rw [List.getElem_zipWith, List.getElem_map, List.getElem_map]
  rw [List.getD_eq_getElem _ _ hkA, List.getD_eq_getElem _ _ hkB]
  rfl

/-- Witness for C7's amended statement on a concrete 3-image dataset. -/
theorem C7_unbalanced_sampler_size_and_flags_witness :
    (keras_get_img_pairs_and_labels ([7, 8, 9] : List Nat) [0, 1, 2]
        [0, 1, 0] [1, 1, 0]).labels.length = 3 ∧
    (keras_get_img_pairs_and_labels ([7, 8, 9] : List Nat) [0, 1, 2]
        [0, 1, 0] [1, 1, 0]).labels.getD 1 0 = 1 := by
  have h := C7_unbalanced_sampler_size_and_flags ([7, 8, 9] : List Nat) [0, 1, 2]
    [0, 1, 0] [1, 1, 0] (by decide) (by decide)
  refine ⟨h.1, ?_⟩
  have h1 := h.2 1 (by decide)
  simpa using h1

/-! ## C9 -/

/-- C9: evaluation of the prompt validation at the boundary input.  The
sentinel `exit` terminates at either prompt and malformed or negative counts
re-prompt, exactly as the claim says, but the input `0` — a non-positive
integer the claim requires to be rejected — is accepted by the `< 0` test on
line 282 and triggers generation with count 0.  The code contradicts its own
rejection message `'Please enter an positive integer'`. -/
theorem C9_count_zero_triggers_generation :
    count_input_step ['0'] = CountStep.generate 0 ∧
    count_input_step ['-', '1'] = CountStep.reprompt ∧
    count_input_step ['a', 'b'] = CountStep.reprompt ∧
    count_input_step ['e', 'x', 'i', 't'] = CountStep.exitSession ∧
    seed_input_step ['e', 'x', 'i', 't'] = SeedStep.exitSession := by
  decide

/-! ## C5 -/

/-- C5: a seed shorter than the 40-character window is rejected by
`generate_text` before any character is generated: the call takes the
error branch of lines 182-184 (the spec's `InvalidArgument` "seed too short"
outcome) and produces no generated output. -/
theorem C5_short_seed_rejected (vocab : List Char) (sample : Nat → Nat → Nat)
    (raw_seed : List Char) (num_char : Nat) (h : raw_seed.length < 40) :
    generate_text vocab sample raw_seed num_char = GenOutcome.seedTooShort := by
  simp only [generate_text]
  split
  · rfl
  · next hcond => exact absurd (by simpa using h) hcond

/-- Witness for C5 on a one-character seed. -/
theorem C5_short_seed_rejected_witness :
    generate_text ['a'] (fun _ _ => 0) ['x'] 3 = GenOutcome.seedTooShort :=
  C5_short_seed_rejected ['a'] (fun _ _ => 0) ['x'] 3 (by decide)

/-! ## C6 and C10: behaviour of the generation loop -/

theorem gen_chars_ok (vocab : List Char) (sample : Nat → Nat → Nat) (d : Nat)
    (hs : ∀ d i, sample d i < vocab.length) :
    ∀ (m i : Nat) (sentence generated : List Char), (∀ c ∈ sentence, c ∈ vocab) →
      ∃ tail, gen_chars vocab sample d m i sentence generated
          = Except.ok (generated ++ tail) ∧ tail.length = m := by
  intro m
  induction m with
  | zero =>
    intro i s g hsen
    exact ⟨[], by simp [gen_chars], rfl⟩
  | succ m ih =>
    intro i s g hsen
    have hall : s.all (fun c => vocab.contains c) = true :=
      List.all_eq_true.2 (fun c hc => List.elem_iff.2 (hsen c hc))
    have hlt := hs d i
    obtain ⟨tail, heq, hlen⟩ :=
      ih (i + 1) (s.drop 1 ++ [vocab.get ⟨sample d i, hlt⟩])
        (g ++ [vocab.get ⟨sample d i, hlt⟩])
        (by
          intro c hc
          rcases List.mem_append.1 hc with h1 | h2
          · exact hsen c (List.drop_subset 1 s h1)
          · rw [List.mem_singleton] at h2
            subst h2
            exact List.get_mem vocab (sample d i) hlt)
    refine ⟨vocab.get ⟨sample d i, hlt⟩ :: tail, ?_, by simp [hlen]⟩
    simp only [gen_chars]
    rw [if_pos hall, dif_pos hlt, heq, List.append_assoc]
    rfl

theorem run_all_diversities_ok (vocab : List Char) (sample : Nat → Nat → Nat)
    (num_char : Nat) (window : List Char)
    (hs : ∀ d i, sample d i < vocab.length)
    (hw : ∀ c ∈ window, c ∈ vocab) :
    ∀ ds : List Nat,
      ∃ runs, run_all_diversities vocab sample num_char window ds = Except.ok runs ∧
        runs.length = ds.length ∧ ∀ r ∈ runs, r.length = num_char := by
  intro ds
  induction ds with
  | nil => exact ⟨[], rfl, rfl, by simp⟩
  | cons d rest ih =>
    obtain ⟨tail, hg, hlen⟩ := gen_chars_ok vocab sample d hs num_char 0 window [] hw
    obtain ⟨runs, hr, hrl, hrall⟩ := ih
    refine ⟨tail :: runs, ?_, by simp [hrl], ?_⟩
    · rw [List.nil_append] at hg
      simp [run_all_diversities, hg, hr]
    · intro r hrm
      rcases List.mem_cons.1 hrm with rfl | hrm
      · exact hlen
      · exact hrall r hrm

/-- C6 amended: for any run with a seed of length at least 40 whose window
characters are known to the vocabulary, `generate_text` emits one string per
diversity (4 runs); each emitted string has length `len(seed) + M` and its
first `len(seed)` characters are the LOWERCASED seed (line 178 lowercases the
seed before it is echoed and extended), not necessarily the original seed. -/
theorem C6_generated_length_and_lowercased_seed
    (vocab : List Char) (sample : Nat → Nat → Nat) (raw_seed : List Char) (M : Nat)
    (hlen : 40 ≤ raw_seed.length)
    (hw : ∀ c ∈ seed_window raw_seed, c ∈ vocab)
    (hs : ∀ d i, sample d i < vocab.length) :
    ∃ runs, generate_text vocab sample raw_seed M = GenOutcome.generated runs ∧
      runs.length = 4 ∧
      ∀ r ∈ runs, r.length = raw_seed.length + M ∧
        r.take raw_seed.length = raw_seed.map Char.toLower := by
  obtain ⟨rs, hr, hrl, hrall⟩ :=
    run_all_diversities_ok vocab sample M (seed_window raw_seed) hs hw [0, 1, 2, 3]
  refine ⟨rs.map (fun cs => raw_seed.map Char.toLower ++ cs), ?_, by simp [hrl], ?_⟩
  · simp only [generate_text]
    split
    · next hcond => exact absurd hlen (not_le.2 (by simpa using hcond))
    · rw [hr]
  · intro r hrm
    rcases List.mem_map.1 hrm with ⟨cs, hcs, rfl⟩
    constructor
    · simp [List.length_append, hrall cs hcs, Nat.add_comm]
    · have htl := List.take_left (raw_seed.map Char.toLower) cs
      rwa [List.length_map] at htl

/-- Witness for C6's amended statement: one concrete run over the
single-character vocabulary. -/
theorem C6_generated_length_and_lowercased_seed_witness :
    ∃ runs, generate_text ['a'] (fun _ _ => 0) (List.replicate 40 'a') 1
        = GenOutcome.generated runs ∧
      runs.length = 4 ∧
      ∀ r ∈ runs, r.length = (List.replicate 40 'a' : List Char).length + 1 ∧
        r.take (List.replicate 40 'a' : List Char).length
          = (List.replicate 40 'a' : List Char).map Char.toLower :=
  C6_generated_length_and_lowercased_seed ['a'] (fun _ _ => 0)
    (List.replicate 40 'a') 1 (by decide) (by decide) (fun _ _ => Nat.zero_lt_one)

/-- C6 counterexample: with the all-uppercase 40-character seed and `M = 0`
the emitted strings are the lowercased seed, which differs from the original
seed, refuting "first `len(seed)` characters equal the original seed" and
"returns the seed unchanged". -/
theorem C6_counterexample_uppercase_seed :
    generate_text ['a'] (fun _ _ => 0) (List.replicate 40 'A') 0
        = GenOutcome.generated (List.replicate 4 (List.replicate 40 'a')) ∧
      (List.replicate 40 'a' : List Char) ≠ List.replicate 40 'A' := by
  constructor
  · decide
  · decide

/-- C10 counterexample: a 41-character seed containing `'z'`, a character not
in the vocabulary `['a', 'b']`, does NOT make `generate_text` fail: the
unknown character sits outside the last-40-character window that is actually
encoded, so generation succeeds.  (With `M = 0` even an unknown character
inside the window is never encoded.) -/
theorem C10_counterexample_bad_char_outside_window :
    generate_text ['a', 'b'] (fun _ _ => 0) ('z' :: List.replicate 40 'a') 1
      = GenOutcome.generated
          (List.replicate 4 (('z' :: List.replicate 40 'a') ++ ['a'])) := by
  decide

/-- C10 amended: if the LAST 40 characters of the lowercased seed (the window
actually encoded on lines 196-198) contain a character missing from the
vocabulary and at least one character is to be generated, `generate_text`
aborts with an uncaught dictionary lookup failure (KeyError); seed length is
the only property validated before the loop. -/
theorem C10_lookup_failure_on_unknown_window_char
    (vocab : List Char) (sample : Nat → Nat → Nat) (raw_seed : List Char) (M : Nat)
    (hlen : 40 ≤ raw_seed.length)
    (hbad : ∃ c ∈ seed_window raw_seed, c ∉ vocab)
    (hM : 1 ≤ M) :
    generate_text vocab sample raw_seed M = GenOutcome.lookupFailure := by
  obtain ⟨c, hc, hcv⟩ := hbad
  obtain ⟨m, rfl⟩ : ∃ m, M = m + 1 := ⟨M - 1, by omega⟩
  have hall : (seed_window raw_seed).all (fun c => vocab.contains c) = false :=
    List.all_eq_false.2 ⟨c, hc, fun h => hcv (List.elem_iff.1 h)⟩
  have hcond' : ¬ ((seed_window raw_seed).all (fun c => vocab.contains c) = true) := by
    rw [hall]
    exact Bool.false_ne_true
  have hgen : gen_chars vocab sample 0 (m + 1) 0 (seed_window raw_seed) []
      = Except.error () := by
    simp only [gen_chars]
    rw [if_neg hcond']
  have hrun : run_all_diversities vocab sample (m + 1) (seed_window raw_seed) [0, 1, 2, 3]
      = Except.error () := by
    simp only [run_all_diversities]
    rw [hgen]
  simp only [generate_text]
  split
  · next hcond => exact absurd hlen (not_le.2 (by simpa using hcond))
  · rw [hrun]

/-- Witness for C10's amended statement: an unknown character inside the
window makes the call abort. -/
theorem C10_lookup_failure_on_unknown_window_char_witness :
    generate_text ['a'] (fun _ _ => 0) (List.replicate 40 'z') 1
      = GenOutcome.lookupFailure :=
  C10_lookup_failure_on_unknown_window_char ['a'] (fun _ _ => 0)
    (List.replicate 40 'z') 1 (by decide) ⟨'z', by decide, by decide⟩ (by decide)

/-! ## C8 -/

theorem generate_char_index_nodup (text : List Char) :
    (generate_char_index text).Nodup :=
  (List.perm_insertionSort (· ≤ ·) text.dedup).symm.nodup (List.nodup_dedup text)

theorem mem_generate_char_index {text : List Char} {c : Char} :
    c ∈ generate_char_index text ↔ c ∈ text := by
  unfold generate_char_index
  rw [(List.perm_insertionSort (· ≤ ·) text.dedup).mem_iff]
  exact List.mem_dedup

/-- C8: the character vocabulary builder is deterministic — its output depends
only on the set of characters of the corpus, so re-running it (even on a
reordered corpus with the same characters) yields identical mappings — it
lists the distinct corpus characters in sorted code-point order, and the two
dictionaries are mutually inverse: `indices_char ∘ char_indices = id` on
corpus characters and `char_indices ∘ indices_char = id` on `0..num_chars-1`. -/
theorem C8_char_vocab_builder (text : List Char) :
    (∀ text2 : List Char, (∀ c : Char, c ∈ text ↔ c ∈ text2) →
        generate_char_index text = generate_char_index text2) ∧
    List.Sorted (· ≤ ·) (generate_char_index text) ∧
    (∀ c ∈ text, indices_char text (char_indices text c) = c) ∧
    (∀ i < (generate_char_index text).length,
        char_indices text (indices_char text i) = i) := by
  refine ⟨?_, List.sorted_insertionSort (· ≤ ·) text.dedup, ?_, ?_⟩
  · intro text2 hset
    apply List.eq_of_perm_of_sorted ?_ (List.sorted_insertionSort (· ≤ ·) text.dedup)
      (List.sorted_insertionSort (· ≤ ·) text2.dedup)
    have p1 : (List.insertionSort (· ≤ ·) text.dedup).Perm text.dedup :=
      List.perm_insertionSort (· ≤ ·) text.dedup
    have p2 : text.dedup.Perm text2.dedup := by
      rw [List.perm_ext_iff_of_nodup (List.nodup_dedup text) (List.nodup_dedup text2)]
      intro a
      rw [List.mem_dedup, List.mem_dedup]
      exact hset a
    have p3 : text2.dedup.Perm (List.insertionSort (· ≤ ·) text2.dedup) :=
      (List.perm_insertionSort (· ≤ ·) text2.dedup).symm
    exact (p1.trans p2).trans p3
  · intro c hc
    have hmem : c ∈ generate_char_index text := mem_generate_char_index.2 hc
    have hidx : (generate_char_index text).indexOf c < (generate_char_index text).length :=
      List.indexOf_lt_length.2 hmem
    unfold indices_char char_indices
    rw [List.getD_eq_getElem _ _ hidx]
    exact List.getElem_indexOf hidx
  · intro i hi
    unfold indices_char char_indices
    rw [List.getD_eq_getElem _ _ hi]
    have := List.get_indexOf (generate_char_index_nodup text) ⟨i, hi⟩
    simpa [List.get_eq_getElem] using this

/-- Witness for C8 on a concrete corpus. -/
theorem C8_char_vocab_builder_witness :
    generate_char_index ['b', 'a', 'b'] = generate_char_index ['a', 'b'] ∧
    indices_char ['b', 'a', 'b'] (char_indices ['b', 'a', 'b'] 'b') = 'b' ∧
    char_indices ['b', 'a', 'b'] (indices_char ['b', 'a', 'b'] 0) = 0 := by
  refine ⟨(C8_char_vocab_builder ['b', 'a', 'b']).1 ['a', 'b']
      (by intro c; simp; tauto), ?_, ?_⟩
  · exact (C8_char_vocab_builder ['b', 'a', 'b']).2.2.1 'b' (by decide)
  · exact (C8_char_vocab_builder ['b', 'a', 'b']).2.2.2 0 (by decide)

/-! ## C1 and C2: the balanced sampler -/

theorem pool_match_labels_def (lbls a b : List Nat) :
    List.zipWith matchFlag (a.map (fun i => lbls.getD i 0))
        (b.map (fun i => lbls.getD i 0))
      = pool_match_labels lbls a b := rfl

theorem map_getD_take_idx_true (l : List Nat) (half : Nat) (h : half ≤ l.count 0) :
    ((idx_true_of l).take half).map (fun i => l.getD i 0)
      = List.replicate half 0 := by
  rw [List.eq_replicate_iff]
  constructor
  · rw [List.length_map, List.length_take, idx_true_of_length,
      countP_eq_zero_eq_count_zero]
    exact min_eq_left h
  · intro b hb
    rcases List.mem_map.1 hb with ⟨i, hi, rfl⟩
    exact mem_idx_true_of (List.take_subset _ _ hi)

theorem map_getD_take_idx_false (l : List Nat) (half : Nat)
    (h01 : ∀ x ∈ l, x = 0 ∨ x = 1) (h : half ≤ l.count 1) :
    ((idx_false_of l).take half).map (fun i => l.getD i 0)
      = List.replicate half 1 := by
  rw [List.eq_replicate_iff]
  constructor
  · rw [List.length_map, List.length_take, idx_false_of_length,
      countP_ne_zero_eq_count_one h01]
    exact min_eq_left h
  · intro b hb
    rcases List.mem_map.1 hb with ⟨i, hi, rfl⟩
    have hmem := List.take_subset _ _ hi
    have hne := mem_idx_false_of hmem
    have hlt := (mem_nonzeroIdx.1 hmem).1
    have hval : l.getD i 0 ∈ l := by
      rw [List.getD_eq_getElem _ _ hlt]
      exact List.getElem_mem hlt
    rcases h01 _ hval with h0 | h1
    · exact absurd h0 hne
    · exact h1

theorem getD_map_getD_lt {lbls idx : List Nat} {w : Nat} (hw : 0 < w)
    (hlbl : ∀ l ∈ lbls, l < w) (i : Nat) :
    (idx.map (fun j => lbls.getD j 0)).getD i 0 < w := by
  by_cases hi : i < (idx.map (fun j => lbls.getD j 0)).length
  · rw [List.getD_eq_getElem _ _ hi]
    have hmem := List.getElem_mem hi
    rcases List.mem_map.1 hmem with ⟨j, _, heq⟩
    rw [← heq]
    by_cases hjl : j < lbls.length
    · rw [List.getD_eq_getElem _ _ hjl]
      exact hlbl _ (List.getElem_mem hjl)
    · rw [List.getD_eq_default _ _ (by omega)]
      exact hw
  · rw [List.getD_eq_default _ _ (by omega)]
    exact hw

theorem fancyOneHotAssign_of_length_eq (n width : Nat) (cols : List Nat)
    (hlen : cols.length = n) (hcols : ∀ c ∈ cols, c < width) :
    fancyOneHotAssign n width cols
      = some ((List.range n).map (fun k => oneHotRow width (cols.getD k 0))) := by
  unfold fancyOneHotAssign
  rw [if_neg, if_pos hlen]
  intro hcon
  rcases List.any_eq_true.1 hcon with ⟨c, hc, hge⟩
  exact absurd (hcols c hc) (by simpa using hge)

theorem fancyOneHotAssign_eq_none (n width : Nat) (cols : List Nat)
    (h1 : cols.length ≠ n) (h2 : cols.length ≠ 1) (h3 : n ≠ 1) :
    fancyOneHotAssign n width cols = none := by
  unfold fancyOneHotAssign
  by_cases hany : cols.any (fun c => width ≤ c) = true
  · rw [if_pos hany]
  · rw [if_neg hany, if_neg h1, if_neg h2, if_neg h3]

/-- C1: for every run of the balanced sampler with `D` even, an oversampled
pool of `10*D` pairs, MNIST-range labels, and at least `D/2` match and `D/2`
non-match pairs in the pool, the routine returns normally and its output
match-flag vector is exactly `D/2` zeros (non-match) followed by exactly
`D/2` ones (match): exactly `D/2` pairs of each kind, non-match entries
first. -/
theorem C1_balanced_sampler_exact_halves {α : Type} [Inhabited α]
    (imgs : List α) (lbls : List Nat) (D : Nat)
    (digit_a_idx digit_b_idx : List Nat)
    (hD : D % 2 = 0)
    (hA : digit_a_idx.length = D * 10)
    (hB : digit_b_idx.length = D * 10)
    (hlbl : ∀ l ∈ lbls, l < 10)
    (hmatch : D / 2 ≤ (pool_match_labels lbls digit_a_idx digit_b_idx).count 1)
    (hnon : D / 2 ≤ (pool_match_labels lbls digit_a_idx digit_b_idx).count 0) :
    ∃ d, mnist_get_img_pairs_and_labels imgs lbls D digit_a_idx digit_b_idx
        = some d ∧
      d.labels = List.replicate (D / 2) 0 ++ List.replicate (D / 2) 1 ∧
      d.labels.count 1 = D / 2 ∧ d.labels.count 0 = D / 2 := by
  set labels := pool_match_labels lbls digit_a_idx digit_b_idx with hlabdef
  have h01 : ∀ x ∈ labels, x = 0 ∨ x = 1 := fun x hx => pool_match_labels_mem hx
  have htrue : ((idx_true_of labels).take (D / 2)).length = D / 2 := by
    rw [List.length_take, idx_true_of_length, countP_eq_zero_eq_count_zero]
    exact min_eq_left hnon
  have hfalse : ((idx_false_of labels).take (D / 2)).length = D / 2 := by
    rw [List.length_take, idx_false_of_length, countP_ne_zero_eq_count_one h01]
    exact min_eq_left hmatch
  have hilen : (idx_images_of labels (D / 2)).length = D / 2 * 2 := by
    rw [idx_images_of, List.length_append, htrue, hfalse, mul_two]
  have hmap : (idx_images_of labels (D / 2)).map (fun i => labels.getD i 0)
      = List.replicate (D / 2) 0 ++ List.replicate (D / 2) 1 := by
    rw [idx_images_of, List.map_append, map_getD_take_idx_true labels _ hnon,
      map_getD_take_idx_false labels _ h01 hmatch]
  have hcolsA : ∀ c ∈ (idx_images_of labels (D / 2)).map
      (fun i => (digit_a_idx.map (fun j => lbls.getD j 0)).getD i 0), c < 10 := by
    intro c hc
    rcases List.mem_map.1 hc with ⟨i, _, rfl⟩
    exact getD_map_getD_lt (by omega) hlbl i
  have hcolsB : ∀ c ∈ (idx_images_of labels (D / 2)).map
      (fun i => (digit_b_idx.map (fun j => lbls.getD j 0)).getD i 0), c < 10 := by
    intro c hc
    rcases List.mem_map.1 hc with ⟨i, _, rfl⟩
    exact getD_map_getD_lt (by omega) hlbl i
  have hlenA : ((idx_images_of labels (D / 2)).map
      (fun i => (digit_a_idx.map (fun j => lbls.getD j 0)).getD i 0)).length
        = D / 2 * 2 := by
    rw [List.length_map]
    exact hilen
  have hlenB : ((idx_images_of labels (D / 2)).map
      (fun i => (digit_b_idx.map (fun j => lbls.getD j 0)).getD i 0)).length
        = D / 2 * 2 := by
    rw [List.length_map]
    exact hilen
  have hcA := fancyOneHotAssign_of_length_eq _ 10 _ hlenA hcolsA
  have hcB := fancyOneHotAssign_of_length_eq _ 10 _ hlenB hcolsB
  obtain ⟨d, hd1, hd2⟩ :
      ∃ d, mnist_get_img_pairs_and_labels imgs lbls D digit_a_idx digit_b_idx
          = some d ∧
        d.labels = (idx_images_of labels (D / 2)).map (fun i => labels.getD i 0) := by
    simp only [mnist_get_img_pairs_and_labels]
    rw [pool_match_labels_def, ← hlabdef, hcA, hcB]
    exact ⟨_, rfl, rfl⟩
  refine ⟨d, hd1, hd2.trans hmap, ?_, ?_⟩
  · rw [hd2, hmap]
    simp [List.count_append, List.count_replicate]
  · rw [hd2, hmap]
    simp [List.count_append, List.count_replicate]

/-- Witness for C1 on a concrete run: `D = 2`, a 20-pair pool alternating
match and non-match. -/
theorem C1_balanced_sampler_exact_halves_witness :
    ∃ d, mnist_get_img_pairs_and_labels ([5, 6] : List Nat) [0, 1] 2
        [0, 0, 0, 0, 0, 0, 0, 0, 0, 0, 0, 0, 0, 0, 0, 0, 0, 0, 0, 0]
        [0, 1, 0, 1, 0, 1, 0, 1, 0, 1, 0, 1, 0, 1, 0, 1, 0, 1, 0, 1]
        = some d ∧
      d.labels = List.replicate 1 0 ++ List.replicate 1 1 ∧
      d.labels.count 1 = 1 ∧ d.labels.count 0 = 1 :=
  C1_balanced_sampler_exact_halves [5, 6] [0, 1] 2
    [0, 0, 0, 0, 0, 0, 0, 0, 0, 0, 0, 0, 0, 0, 0, 0, 0, 0, 0, 0]
    [0, 1, 0, 1, 0, 1, 0, 1, 0, 1, 0, 1, 0, 1, 0, 1, 0, 1, 0, 1]
    (by decide) (by decide) (by decide) (by decide) (by decide) (by decide)

/-- C2 counterexample: a run of the balanced sampler (`D = 4`, 40-pair pool
with no matching pair at all, so the match partition has `0 < D/2 = 2`
entries) does NOT return normally: the one-hot label assignment of line 65
fails on a numpy shape mismatch (2 surviving indices against
`np.arange(4)`), modelled as `none`.  The claim says such a run returns
normally with a silently smaller pair set. -/
theorem C2_counterexample_short_partition_error :
    mnist_get_img_pairs_and_labels ([0, 1] : List Nat) [0, 1] 4
        (List.replicate 40 0) (List.replicate 40 1) = none := rfl

/-- C2 amended: when either partition of the oversampled pool has fewer than
`D/2` entries, the pair arrays assembled on lines 58-60 are silently smaller
than `D`, but the routine does not return normally unless the surviving index
count broadcasts against `np.arange(2*(D/2))` (i.e. equals it or equals 1):
in every other case the auxiliary one-hot assignment of lines 63-66 raises a
shape-mismatch error and the whole call fails. -/
theorem C2_short_partition_raises {α : Type} [Inhabited α]
    (imgs : List α) (lbls : List Nat) (D : Nat)
    (digit_a_idx digit_b_idx : List Nat)
    (hshort : (pool_match_labels lbls digit_a_idx digit_b_idx).count 1 < D / 2
      ∨ (pool_match_labels lbls digit_a_idx digit_b_idx).count 0 < D / 2)
    (hs1 : (idx_images_of (pool_match_labels lbls digit_a_idx digit_b_idx) (D / 2)).length
      ≠ 1) :
    mnist_get_img_pairs_and_labels imgs lbls D digit_a_idx digit_b_idx = none := by
  set labels := pool_match_labels lbls digit_a_idx digit_b_idx with hlabdef
  have h01 : ∀ x ∈ labels, x = 0 ∨ x = 1 := fun x hx => pool_match_labels_mem hx
  have htrue : ((idx_true_of labels).take (D / 2)).length
      = min (D / 2) (labels.count 0) := by
    rw [List.length_take, idx_true_of_length, countP_eq_zero_eq_count_zero]
  have hfalse : ((idx_false_of labels).take (D / 2)).length
      = min (D / 2) (labels.count 1) := by
    rw [List.length_take, idx_false_of_length, countP_ne_zero_eq_count_one h01]
  have hilen : (idx_images_of labels (D / 2)).length
      = min (D / 2) (labels.count 0) + min (D / 2) (labels.count 1) := by
    rw [idx_images_of, List.length_append, htrue, hfalse]
  have hlt : (idx_images_of labels (D / 2)).length < D / 2 * 2 := by
    rw [hilen]
    rcases hshort with h | h
    · have h1 : min (D / 2) (labels.count 1) = labels.count 1 := min_eq_right (by omega)
      have h2 : min (D / 2) (labels.count 0) ≤ D / 2 := min_le_left _ _
      omega
    · have h1 : min (D / 2) (labels.count 0) = labels.count 0 := min_eq_right (by omega)
      have h2 : min (D / 2) (labels.count 1) ≤ D / 2 := min_le_left _ _
      omega
  have hne2 : D / 2 * 2 ≠ 1 := by omega
  have hcA := fancyOneHotAssign_eq_none (D / 2 * 2) 10
    ((idx_images_of labels (D / 2)).map
      (fun i => (digit_a_idx.map (fun j => lbls.getD j 0)).getD i 0))
    (by rw [List.length_map]; omega) (by rw [List.length_map]; exact hs1) hne2
  simp only [mnist_get_img_pairs_and_labels]
  rw [pool_match_labels_def, ← hlabdef, hcA]

/-- Witness for C2's amended statement: an all-match pool with `D = 4` (the
non-match partition is empty) makes the call fail. -/
theorem C2_short_partition_raises_witness :
    mnist_get_img_pairs_and_labels ([5, 6] : List Nat) [3, 3] 4
        (List.replicate 40 0) (List.replicate 40 1) = none :=
  C2_short_partition_raises [5, 6] [3, 3] 4
    (List.replicate 40 0) (List.replicate 40 1)
    (Or.inr (by decide)) (by decide)

/-! ## C4: the sequence windower -/

theorem getD_set_ne {β : Type} (l : List β) (k j : Nat) (v d : β) (h : k ≠ j) :
    (l.set k v).getD j d = l.getD j d := by
  rw [List.getD_eq_getElem?_getD, List.getD_eq_getElem?_getD, List.getElem?_set_ne h]

theorem getD_set_self {β : Type} (l : List β) (j : Nat) (v d : β) (h : j < l.length) :
    (l.set j v).getD j d = v := by
  rw [List.getD_eq_getElem _ _ (by rw [List.length_set]; exact h)]
  exact List.getElem_set_self _

theorem foldl_set_pair_split {β γ : Type} (f : Nat → β) (g : Nat → γ)
    (l : List Nat) (a : List β) (b : List γ) :
    l.foldl (fun acc k => (acc.1.set k (f k), acc.2.set k (g k))) (a, b)
      = (l.foldl (fun x k => x.set k (f k)) a, l.foldl (fun x k => x.set k (g k)) b) := by
  induction l generalizing a b with
  | nil => rfl
  | cons k t ih =>
    simp only [List.foldl_cons]
    exact ih _ _

theorem foldl_set_range_length {β : Type} (f : Nat → β) (n : Nat) (a : List β) :
    ((List.range n).foldl (fun x k => x.set k (f k)) a).length = a.length := by
  induction n with
  | zero => rfl
  | succ m ih =>
    rw [List.range_succ, List.foldl_append]
    simp only [List.foldl_cons, List.foldl_nil]
    rw [List.length_set, ih]

theorem foldl_set_range_getD_ge {β : Type} (f : Nat → β) (n : Nat) (a : List β)
    (j : Nat) (d : β) (h : n ≤ j) :
    ((List.range n).foldl (fun x k => x.set k (f k)) a).getD j d = a.getD j d := by
  induction n with
  | zero => rfl
  | succ m ih =>
    rw [List.range_succ, List.foldl_append]
    simp only [List.foldl_cons, List.foldl_nil]
    rw [getD_set_ne _ _ _ _ _ (by omega), ih (by omega)]

theorem foldl_set_range_getD_lt {β : Type} (f : Nat → β) (n : Nat) (a : List β)
    (j : Nat) (d : β) (hj : j < n) (hja : j < a.length) :
    ((List.range n).foldl (fun x k => x.set k (f k)) a).getD j d = f j := by
  induction n with
  | zero => omega
  | succ m ih =>
    rw [List.range_succ, List.foldl_append]
    simp only [List.foldl_cons, List.foldl_nil]
    by_cases hjm : j = m
    · subst hjm
      exact getD_set_self _ _ _ _ (by rw [foldl_set_range_length]; exact hja)
    · rw [getD_set_ne _ _ _ _ _ (fun hc => hjm hc.symm)]
      exact ih (by omega)

/-- C4 counterexample: for a 101-character corpus with `L = 40` and
`step = 3`, the claim's count `floor((T-L)/step) = 20` is wrong: the code
allocates `int((T-L)/step)+1 = 21` rows and the loop
`range(0, 61, 3)` fills all 21 of them with genuine windows (row 20 is not a
zero row), so 21 windows are produced, not 20. -/
theorem C4_counterexample_window_count :
    (generate_training_data (List.replicate 101 'a') 40 3 1 (fun _ => 0)).1.length = 21 ∧
    (101 - 40) / 3 = 20 ∧
    (generate_training_data (List.replicate 101 'a') 40 3 1 (fun _ => 0)).1.getD 20 []
      ≠ zeroSentence 40 1 := by
  refine ⟨rfl, rfl, ?_⟩
  decide

/-- C4 amended: for `T > L` and `step > 0` the windower produces arrays of
`floor((T-L)/step) + 1` rows (one more than the claim's count); row `j` is a
genuine window — sentence `text[j*step : j*step+L]` one-hot encoded, target
character `text[j*step+L]` — for every `j` with `j*step < T-L` (that is
`ceil((T-L)/step)` windows), and any remaining row (exactly one, present when
`step` divides `T-L`) stays zero-filled. -/
theorem C4_windower_rows (text : List Char) (L step num_chars : Nat)
    (ci : Char → Nat) (hstep : 0 < step) (hL : L < text.length) :
    (generate_training_data text L step num_chars ci).1.length
        = (text.length - L) / step + 1 ∧
    (generate_training_data text L step num_chars ci).2.length
        = (text.length - L) / step + 1 ∧
    (∀ j, j * step < text.length - L →
      (generate_training_data text L step num_chars ci).1.getD j []
          = vectorize_chars num_chars ci ((text.drop (j * step)).take L) ∧
      (generate_training_data text L step num_chars ci).2.getD j []
          = (List.range num_chars).map
              (fun t => t == ci (text.getD (j * step + L) default))) ∧
    (∀ j, ¬ j * step < text.length - L → j < (text.length - L) / step + 1 →
      (generate_training_data text L step num_chars ci).1.getD j []
          = zeroSentence L num_chars ∧
      (generate_training_data text L step num_chars ci).2.getD j []
          = zeroRow num_chars) := by
  have key : generate_training_data text L step num_chars ci
      = ((List.range ((text.length - L + step - 1) / step)).foldl
          (fun x k =>
            x.set k (vectorize_chars num_chars ci ((text.drop (k * step)).take L)))
          (List.replicate ((text.length - L) / step + 1) (zeroSentence L num_chars)),
        (List.range ((text.length - L + step - 1) / step)).foldl
          (fun x k =>
            x.set k ((vectorize_chars num_chars ci
              [text.getD (k * step + L) default]).getD 0 (zeroRow num_chars)))
          (List.replicate ((text.length - L) / step + 1) (zeroRow num_chars))) := by
    simp only [generate_training_data, pyRange]
    rw [List.foldl_map]
    simp only [Nat.mul_div_cancel _ hstep]
    rw [foldl_set_pair_split]
  have hceil : ∀ j : Nat, j < (text.length - L + step - 1) / step
      ↔ j * step < text.length - L := by
    intro j
    constructor
    · intro hj
      have h1 : j + 1 ≤ (text.length - L + step - 1) / step := hj
      rw [Nat.le_div_iff_mul_le hstep, Nat.succ_mul] at h1
      omega
    · intro hj
      have h1 : (j + 1) * step ≤ text.length - L + step - 1 := by
        rw [Nat.succ_mul]
        omega
      exact Nat.lt_of_lt_of_le (Nat.lt_succ_of_le (Nat.le_refl j))
        ((Nat.le_div_iff_mul_le hstep).2 h1)
  have hn_le : (text.length - L + step - 1) / step ≤ (text.length - L) / step + 1 := by
    have hq := Nat.div_add_mod (text.length - L) step
    have hr : (text.length - L) % step < step := Nat.mod_lt _ hstep
    have hlt : (text.length - L + step - 1) / step < (text.length - L) / step + 2 := by
      rw [Nat.div_lt_iff_lt_mul hstep]
      have hmul : ((text.length - L) / step + 2) * step
          = step * ((text.length - L) / step) + 2 * step := by ring
      omega
    omega
  rw [key]
  refine ⟨?_, ?_, ?_, ?_⟩
  · rw [foldl_set_range_length, List.length_replicate]
  · rw [foldl_set_range_length, List.length_replicate]
  · intro j hj
    have hjn : j < (text.length - L + step - 1) / step := (hceil j).2 hj
    have hja : j < (text.length - L) / step + 1 := by omega
    constructor
    · rw [foldl_set_range_getD_lt _ _ _ _ _ hjn (by rw [List.length_replicate]; exact hja)]
    · rw [foldl_set_range_getD_lt _ _ _ _ _ hjn (by rw [List.length_replicate]; exact hja)]
      rfl
  · intro j hj hja
    have hjn : (text.length - L + step - 1) / step ≤ j := by
      by_contra hcon
      exact hj ((hceil j).1 (by omega))
    constructor
    · rw [foldl_set_range_getD_ge _ _ _ _ _ hjn, List.getD_eq_getElem?_getD,
        List.getElem?_replicate, if_pos hja]
      rfl
    · rw [foldl_set_range_getD_ge _ _ _ _ _ hjn, List.getD_eq_getElem?_getD,
        List.getElem?_replicate, if_pos hja]
      rfl

/-- Witness for C4's amended statement: corpus of length 6, `L = 2`,
`step = 2` gives 3 rows, rows 0 and 1 genuine, row 2 zero-filled. -/
theorem C4_windower_rows_witness :
    (generate_training_data ['a', 'b', 'c', 'd', 'e', 'f'] 2 2 1 (fun _ => 0)).1.length
        = (6 - 2) / 2 + 1 ∧
    (generate_training_data ['a', 'b', 'c', 'd', 'e', 'f'] 2 2 1 (fun _ => 0)).1.getD 1 []
        = vectorize_chars 1 (fun _ => 0) ((['a', 'b', 'c', 'd', 'e', 'f'].drop 2).take 2) ∧
    (generate_training_data ['a', 'b', 'c', 'd', 'e', 'f'] 2 2 1 (fun _ => 0)).1.getD 2 []
        = zeroSentence 2 1 :=
  ⟨(C4_windower_rows ['a', 'b', 'c', 'd', 'e', 'f'] 2 2 1 (fun _ => 0)
      (by decide) (by decide)).1,
   ((C4_windower_rows ['a', 'b', 'c', 'd', 'e', 'f'] 2 2 1 (fun _ => 0)
      (by decide) (by decide)).2.2.1 1 (by decide)).1,
   ((C4_windower_rows ['a', 'b', 'c', 'd', 'e', 'f'] 2 2 1 (fun _ => 0)
      (by decide) (by decide)).2.2.2 2 (by decide) (by decide)).1⟩
